import Mathlib

/-!
Verification development for the GridBoss results-ingestion and standings
engine.  The definitions below are a shallow embedding of the Python
source files

  api/app/services/points.py
  api/app/services/idempotency.py
  api/app/services/standings.py
  api/app/routes/results.py

into Lean.  Python dictionaries become association lists, SQL tables become
lists of rows, the clock is an explicit integer parameter, and the single
environmental failure the route handles (an exception raised inside the
try block before commit) becomes an explicit boolean parameter.  Python
`sorted` (a stable ascending sort) is embedded as a structural insertion
sort, which is stable and kernel-computable.
-/

namespace GridBoss

/-! ## Stable ascending sort (embedding of Python `sorted(xs, key=...)`) -/

/-- Insert `x` into `l` before the first element `y` with `le x y`. -/
def insertSorted (le : α → α → Bool) (x : α) : List α → List α
  | [] => [x]
  | y :: ys => if le x y then x :: y :: ys else y :: insertSorted le x ys

/-- Stable insertion sort, ascending with respect to `le`. -/
def sortedBy (le : α → α → Bool) : List α → List α
  | [] => []
  | x :: xs => insertSorted le x (sortedBy le xs)

/-! ## Lowercasing and code-point comparison of strings

Python `str.lower()` is embedded as a character-wise `Char.toLower`
(the source only lowercases ASCII key material and display names), and
Python string comparison (lexicographic by code point) as a boolean
comparison of character lists. -/

/-- Embedding of Python `s.lower()`. -/
def pyLower (s : String) : String := String.mk (s.data.map Char.toLower)

/-- The lowercased character sequence of a string. -/
def lowerChars (s : String) : List Char := s.data.map Char.toLower

/-- Lexicographic (code-point) order on character lists, as compared by
Python when ordering strings.  A proper prefixed string sorts first. -/
def charListLe : List Char → List Char → Bool
  | [], _ => true
  | _ :: _, [] => false
  | a :: as, b :: bs =>
      if a.toNat < b.toNat then true
      else if b.toNat < a.toNat then false
      else charListLe as bs

/-! ## Ephemeral key-value maps

Both the idempotency service and the standings cache keep a Python dict
mapping a string key to a pair (stored value, expiry timestamp).  The
dict is embedded as an association list; `storeSet` overwrites any
previous binding of the key, `storePop` removes it. -/

/-- Embedding of the `_memory_store` dicts: key to (value, expiry). -/
abbrev MemStore (α : Type) : Type := List (String × α × Int)

/-- Dict lookup (`store.get(key)`). -/
def storeGet (s : MemStore α) (k : String) : Option (α × Int) :=
  (List.find? (fun e => e.1 == k) s).map (fun e => e.2)

/-- Dict assignment (`store[key] = (value, expiry)`). -/
def storeSet (s : MemStore α) (k : String) (v : α) (exp : Int) : MemStore α :=
  (k, v, exp) :: List.filter (fun e => !(e.1 == k)) s

/-- Dict removal (`store.pop(key, None)`). -/
def storePop (s : MemStore α) (k : String) : MemStore α :=
  List.filter (fun e => !(e.1 == k)) s

/-! ## services/points.py -/

/-- `DEFAULT_F1_POINTS`, the built-in top-10 fallback table, in insertion
order of the source dict. -/
def DEFAULT_F1_POINTS : List (Nat × Int) :=
  [(1, 25), (2, 18), (3, 15), (4, 12), (5, 10), (6, 8), (7, 6), (8, 4), (9, 2), (10, 1)]

/-- `default_points_entries()`: the default table as (position, points)
pairs sorted by position. -/
def default_points_entries : List (Nat × Int) :=
  sortedBy (fun a b => decide (a.1 ≤ b.1)) DEFAULT_F1_POINTS

/-- `build_points_map(entries)`: the dict built from the entries.  Later
entries would overwrite earlier ones; every caller passes entries with
unique positions, under which the association list is an exact embedding
of the dict. -/
def build_points_map (entries : List (Nat × Int)) : List (Nat × Int) := entries

/-- `points_map.get(position, 0)`. -/
def pointsGet (m : List (Nat × Int)) (pos : Nat) : Int :=
  match List.find? (fun p => p.1 == pos) m with
  | some p => p.2
  | none => 0

/-! ## services/idempotency.py (process-local backend)

The Redis-backed branch of `IdempotencyService.claim` is an external
collaborator; the embedding covers the process-local `_claim_memory`
backend, the namespaced key construction, and `release`.  The fingerprint
type is a parameter: the service only ever compares fingerprints for
equality. -/

/-- Outcome alphabet of `IdempotencyService.claim`. -/
inductive ClaimOutcome
  | claimed
  | duplicate
  | conflict
deriving DecidableEq

/-- `IdempotencyService._build_key`: namespacing plus lowercasing. -/
def idemBuildKey (scope key : String) : String :=
  pyLower ("idempotency:" ++ scope ++ ":" ++ key)

/-- `IdempotencyService._claim_memory`: claim if the key is absent or the
record expired; otherwise compare the stored fingerprint. -/
def claimMemory [DecidableEq α] (store : MemStore α) (storageKey : String)
    (payloadHash : α) (now ttl : Int) : ClaimOutcome × MemStore α :=
  match storeGet store storageKey with
  | none => (.claimed, storeSet store storageKey payloadHash (now + ttl))
  | some (existingHash, expiresAt) =>
      if expiresAt < now then
        (.claimed, storeSet store storageKey payloadHash (now + ttl))
      else if existingHash = payloadHash then (.duplicate, store)
      else (.conflict, store)

/-- `IdempotencyService.claim` on the process-local backend. -/
def idemClaim [DecidableEq α] (store : MemStore α) (scope key : String)
    (payloadHash : α) (now ttl : Int) : ClaimOutcome × MemStore α :=
  claimMemory store (idemBuildKey scope key) payloadHash now ttl

/-- `IdempotencyService.release` on the process-local backend. -/
def idemRelease (store : MemStore α) (scope key : String) : MemStore α :=
  storePop store (idemBuildKey scope key)

/-! ## Relational data model (db/models.py, the columns the core reads)

Primary keys are embedded as natural numbers standing for UUIDs. -/

/-- `EventStatus`. -/
inductive EStatus
  | scheduled
  | completed
  | canceled
deriving DecidableEq

/-- `ResultStatus`. -/
inductive RStatus
  | finished
  | dnf
  | dns
  | dsq
deriving DecidableEq

/-- An `Event` row. -/
structure EventRow where
  id : Nat
  league_id : Nat
  season_id : Option Nat
  status : EStatus
deriving DecidableEq

/-- A `Driver` row. -/
structure DriverRow where
  id : Nat
  league_id : Nat
  display_name : String
deriving DecidableEq

/-- A `PointsScheme` row together with its `PointsRule` children as
(position, points) pairs. -/
structure PointsSchemeRow where
  league_id : Nat
  season_id : Option Nat
  is_default : Bool
  rules : List (Nat × Int)
deriving DecidableEq

/-- A `Result` row. -/
structure ResultRow where
  event_id : Nat
  driver_id : Nat
  finish_position : Nat
  started_position : Option Nat
  status : RStatus
  bonus_points : Int
  penalty_points : Int
  total_points : Int
deriving DecidableEq

/-- The relational store, restricted to the tables the core reads and
writes.  Audit-log rows and worker-job queues are external collaborators
and are outside the modelled state. -/
structure Db where
  events : List EventRow
  drivers : List DriverRow
  schemes : List PointsSchemeRow
  results : List ResultRow
deriving DecidableEq

/-- Lookup of an event by primary key (`_load_event` / the SQL join on
`Event.id`). -/
def findEvent (db : Db) (eventId : Nat) : Option EventRow :=
  List.find? (fun e => e.id == eventId) db.events

/-- The `Result` rows of one event (`select(Result).where(Result.event_id == ...)`). -/
def resultsFor (db : Db) (eventId : Nat) : List ResultRow :=
  List.filter (fun r => r.event_id == eventId) db.results

/-- `order_by(Result.finish_position)` / `sorted(results, key=...finish_position)`. -/
def sortByFinish (rs : List ResultRow) : List ResultRow :=
  sortedBy (fun a b => decide (a.finish_position ≤ b.finish_position)) rs

/-! ## services/standings.py -/

/-- One row of the calculated standings. -/
structure StandingRow where
  driver_id : Nat
  display_name : String
  points : Int
  wins : Nat
  best_finish : Option Nat
deriving DecidableEq

/-- Whether the event of a result row qualifies for the standings of
(league, season): league match, status COMPLETED, exact season match
(`Event.season_id.is_(None)` when no season is given). -/
def qualifyingEvent (db : Db) (league_id : Nat) (season_id : Option Nat)
    (eventId : Nat) : Bool :=
  match findEvent db eventId with
  | some e => e.league_id == league_id && e.status == EStatus.completed
      && e.season_id == season_id
  | none => false

/-- The qualifying results of one driver for (league, season). -/
def qualifyingResults (db : Db) (league_id : Nat) (season_id : Option Nat)
    (driverId : Nat) : List ResultRow :=
  List.filter
    (fun r => r.driver_id == driverId && qualifyingEvent db league_id season_id r.event_id)
    db.results

/-- The aggregated (unsorted) standings row of one driver: sum of
total_points, count of wins, minimum finish position over the qualifying
results. -/
def standingRowFor (db : Db) (league_id : Nat) (season_id : Option Nat)
    (d : DriverRow) : StandingRow :=
  let rs := qualifyingResults db league_id season_id d.id
  { driver_id := d.id
    display_name := d.display_name
    points := (List.map (fun r => r.total_points) rs).sum
    wins := (List.filter (fun r => r.finish_position == 1) rs).length
    best_finish := (List.map (fun r => r.finish_position) rs).min? }

/-- The unsorted driver-complete standings rows: one per driver of the
league (the grouped outer join in `calculate_standings`). -/
def driverRows (db : Db) (league_id : Nat) (season_id : Option Nat) :
    List StandingRow :=
  List.map (standingRowFor db league_id season_id)
    (List.filter (fun d => d.league_id == league_id) db.drivers)

/-- The sentinel rank used by `_sort_key` for a missing best finish. -/
def bfRank : Option Nat → Int
  | some p => (p : Int)
  | none => 1000000

/-- `_sort_key(item)`: points descending, wins descending, best-finish
rank ascending, lowercased display name ascending. -/
def sortKey (r : StandingRow) : Int × Int × Int × List Char :=
  (-r.points, -(r.wins : Int), bfRank r.best_finish, lowerChars r.display_name)

/-- Python tuple comparison of two sort keys. -/
def keyLe (a b : Int × Int × Int × List Char) : Bool :=
  if a.1 ≠ b.1 then decide (a.1 < b.1)
  else if a.2.1 ≠ b.2.1 then decide (a.2.1 < b.2.1)
  else if a.2.2.1 ≠ b.2.2.1 then decide (a.2.2.1 < b.2.2.1)
  else charListLe a.2.2.2 b.2.2.2

/-- The comparison `standings.sort(key=_sort_key)` sorts by. -/
def rowLe (a b : StandingRow) : Bool := keyLe (sortKey a) (sortKey b)

/-- `calculate_standings(league_id, season_id)`. -/
def calculate_standings (db : Db) (league_id : Nat) (season_id : Option Nat) :
    List StandingRow :=
  sortedBy rowLe (driverRows db league_id season_id)

/-! ## StandingsCache (services/standings.py)

The Redis client is an external collaborator; the embedding keeps the
shared store as explicit state together with two environment flags:
whether the client connected at construction time and whether a write
or read call raises `RedisError`.  Payloads are kept as opaque
serialized strings (the JSON round-trip through `json.dumps`/`json.loads`
is injective on the payloads the cache stores). -/

/-- The state of a `StandingsCache` instance plus its Redis environment. -/
structure CacheState where
  redisConnected : Bool
  redisWriteOk : Bool
  redisReadOk : Bool
  ttl : Int
  redis : MemStore String
  memory : MemStore String
deriving DecidableEq

/-- `StandingsCache._build_key`. -/
def cacheBuildKey (league_id : Nat) (season_id : Option Nat) : String :=
  pyLower ("standings:" ++ toString league_id ++ ":"
    ++ (match season_id with | some s => toString s | none => "none"))

/-- `StandingsCache.set`: write the shared store when it is connected and
the write succeeds, returning early; otherwise fall back to the local map
with an explicit expiry. -/
def cacheSet (c : CacheState) (now : Int) (league_id : Nat)
    (season_id : Option Nat) (payload : String) : CacheState :=
  let key := cacheBuildKey league_id season_id
  if c.redisConnected then
    if c.redisWriteOk then
      { c with redis := storeSet c.redis key payload (now + c.ttl) }
    else
      { c with memory := storeSet c.memory key payload (now + c.ttl) }
  else
    { c with memory := storeSet c.memory key payload (now + c.ttl) }

/-- `StandingsCache.get`: read the shared store when connected (an error
or an expired key is a miss); otherwise read the local map, dropping an
expired record.  Payload deserialization is the identity on the opaque
serialized strings. -/
def cacheGet (c : CacheState) (now : Int) (league_id : Nat)
    (season_id : Option Nat) : Option String × CacheState :=
  let key := cacheBuildKey league_id season_id
  if c.redisConnected then
    if c.redisReadOk then
      match storeGet c.redis key with
      | some (v, exp) => if exp < now then (none, c) else (some v, c)
      | none => (none, c)
    else (none, c)
  else
    match storeGet c.memory key with
    | some (v, exp) =>
        if exp < now then (none, { c with memory := storePop c.memory key })
        else (some v, c)
    | none => (none, c)

/-! ## routes/results.py

The handler is embedded as a state transition on the relational store
plus the process-local idempotency store.  RBAC, the audit sink, the
cache invalidation, and the worker-job triggers are external
collaborators or post-commit side effects outside the modelled state;
the submission entries have already passed pydantic validation.  The
fingerprint stored by the idempotency service is the canonical sorted
entry list that `_serialize_payload` serializes (JSON serialization is
injective on it, so fingerprint equality is list equality). -/

/-- A validated `ResultEntryCreate` from the submission body. -/
structure Entry where
  driver_id : Nat
  finish_position : Nat
  started_position : Option Nat
  status : RStatus
  bonus_points : Int
  penalty_points : Int
deriving DecidableEq

/-- The canonical content of `_serialize_payload`: one (driver, finish,
bonus, penalty) tuple per entry, sorted by driver id. -/
abbrev Fingerprint := List (Nat × Nat × Int × Int)

/-- `_compute_total_points`: the raw score floored at zero. -/
def compute_total_points (base_points bonus_points penalty_points : Int) : Int :=
  let total := base_points + bonus_points - penalty_points
  if total > 0 then total else 0

/-- The fingerprint of a submission (`_serialize_payload` of the entries
sorted by driver id). -/
def payloadFingerprint (entries : List Entry) : Fingerprint :=
  List.map (fun e => (e.driver_id, e.finish_position, e.bonus_points, e.penalty_points))
    (sortedBy (fun a b => decide (a.driver_id ≤ b.driver_id)) entries)

/-- `_load_points_scheme`, first query: the default scheme scoped to the
exact (league, season) of the event (`season_id == None` compiles to
`IS NULL`, so a no-season event matches no-season schemes here). -/
def findSeasonDefaultScheme (db : Db) (ev : EventRow) : Option PointsSchemeRow :=
  List.find?
    (fun s => s.league_id == ev.league_id && s.season_id == ev.season_id && s.is_default)
    db.schemes

/-- `_load_points_scheme`, second query: the default scheme of the league
scoped to no season. -/
def findLeagueDefaultScheme (db : Db) (ev : EventRow) : Option PointsSchemeRow :=
  List.find?
    (fun s => s.league_id == ev.league_id && s.season_id == none && s.is_default)
    db.schemes

/-- Rule entries sorted by position. -/
def sortRules (rules : List (Nat × Int)) : List (Nat × Int) :=
  sortedBy (fun a b => decide (a.1 ≤ b.1)) rules

/-- `_load_points_scheme`: season-scoped default first, then the league
default, and the built-in table when no scheme matched or the matched
scheme has no rules. -/
def load_points_scheme (db : Db) (ev : EventRow) : List (Nat × Int) :=
  match (match findSeasonDefaultScheme db ev with
         | some s => some s
         | none => findLeagueDefaultScheme db ev) with
  | none => build_points_map default_points_entries
  | some s =>
      if s.rules.isEmpty then build_points_map default_points_entries
      else build_points_map (sortRules s.rules)

/-- The `Result` row inserted for one submission entry. -/
def buildResultRow (points_map : List (Nat × Int)) (eventId : Nat) (e : Entry) :
    ResultRow :=
  { event_id := eventId
    driver_id := e.driver_id
    finish_position := e.finish_position
    started_position := e.started_position
    status := e.status
    bonus_points := e.bonus_points
    penalty_points := e.penalty_points
    total_points :=
      compute_total_points (pointsGet points_map e.finish_position)
        e.bonus_points e.penalty_points }

/-- A `ResultEntryRead` response item. -/
structure ItemRead where
  driver_id : Nat
  finish_position : Nat
  started_position : Option Nat
  status : RStatus
  bonus_points : Int
  penalty_points : Int
  total_points : Int
deriving DecidableEq

/-- The response item of a persisted `Result` row. -/
def resultToItem (r : ResultRow) : ItemRead :=
  { driver_id := r.driver_id
    finish_position := r.finish_position
    started_position := r.started_position
    status := r.status
    bonus_points := r.bonus_points
    penalty_points := r.penalty_points
    total_points := r.total_points }

/-- An `EventResultsRead` response. -/
structure EventResultsRead where
  event_id : Nat
  league_id : Nat
  season_id : Option Nat
  items : List ItemRead
deriving DecidableEq

/-- `_build_response`: the rows sorted by finish position. -/
def build_response (ev : EventRow) (results : List ResultRow) : EventResultsRead :=
  { event_id := ev.id
    league_id := ev.league_id
    season_id := ev.season_id
    items := List.map resultToItem (sortByFinish results) }

/-- `len({e.driver_id}) == len(entries)`. -/
def noDupDrivers (entries : List Entry) : Bool :=
  (List.map (fun e => e.driver_id) entries).dedup.length == entries.length

/-- `len({e.finish_position}) == len(entries)`. -/
def noDupPositions (entries : List Entry) : Bool :=
  (List.map (fun e => e.finish_position) entries).dedup.length == entries.length

/-- `_ensure_drivers`: every submitted driver id belongs to the league of
the event. -/
def driversOk (db : Db) (league_id : Nat) (entries : List Entry) : Bool :=
  entries.all
    (fun e => db.drivers.any (fun d => d.id == e.driver_id && d.league_id == league_id))

/-- The claim scope string of the handler. -/
def resultsScope (eventId : Nat) : String := "results:" ++ toString eventId

/-- The observable outcome of one `submit_results` call. -/
inductive SubmitOutcome
  | ok (resp : EventResultsRead)
  | apiError (statusCode : Nat) (code : String)
  | internalError
deriving DecidableEq

instance : DecidableEq (String × Fingerprint × Int) := instDecidableEqProd

instance : DecidableEq (MemStore Fingerprint) := instDecidableEqList

/-- The state a `submit_results` call reads and writes. -/
structure SubmitState where
  db : Db
  idem : MemStore Fingerprint
deriving DecidableEq

/-- The rows inserted for a submission, in finish-position order. -/
def newResultRows (points_map : List (Nat × Int)) (ev : EventRow)
    (entries : List Entry) : List ResultRow :=
  List.map (buildResultRow points_map ev.id)
    (sortedBy (fun a b => decide (a.finish_position ≤ b.finish_position)) entries)

/-- The relational store after the replace-all mutation: the result rows
of the event deleted and reinserted, the event marked COMPLETED. -/
def mutatedDb (db : Db) (ev : EventRow) (points_map : List (Nat × Int))
    (entries : List Entry) : Db :=
  { db with
    results := List.filter (fun r => !(r.event_id == ev.id)) db.results
        ++ newResultRows points_map ev entries
    events := List.map
      (fun e => if e.id == ev.id then { e with status := EStatus.completed } else e)
      db.events }

/-- Steps 5-8 of the mutation: delete and reinsert the result rows of the
event in finish-position order, mark the event COMPLETED, commit.  When
the commit raises (`commitFails`), everything is rolled back and a
claimed key is released so a retry can succeed. -/
def performMutation (st : SubmitState) (ev : EventRow) (entries : List Entry)
    (points_map : List (Nat × Int)) (claimedKey : Option (String × String))
    (commitFails : Bool) : SubmitOutcome × SubmitState :=
  if commitFails then
    (.internalError,
      { st with
        idem := match claimedKey with
          | some (scope, key) => idemRelease st.idem scope key
          | none => st.idem })
  else
    (.ok (build_response { ev with status := EStatus.completed }
        (sortByFinish (resultsFor (mutatedDb st.db ev points_map entries) ev.id))),
      { st with db := mutatedDb st.db ev points_map entries })

/-- The idempotency gate and mutation of `submit_results`, after the
validation steps have passed. -/
def submitClaimPhase (st : SubmitState) (now ttl : Int) (eventId : Nat)
    (ev : EventRow) (entries : List Entry) (idempotencyKey : Option String)
    (commitFails : Bool) : SubmitOutcome × SubmitState :=
  let points_map := load_points_scheme st.db ev
  let existing := sortByFinish (resultsFor st.db ev.id)
  let fp := payloadFingerprint entries
  match idempotencyKey with
  | none => performMutation st ev entries points_map none commitFails
  | some key =>
      match idemClaim st.idem (resultsScope eventId) key fp now ttl with
      | (.duplicate, idem') => (.ok (build_response ev existing), { st with idem := idem' })
      | (.conflict, idem') =>
          (.apiError 409 "IDEMPOTENCY_CONFLICT", { st with idem := idem' })
      | (.claimed, idem') =>
          performMutation { st with idem := idem' } ev entries points_map
            (some (resultsScope eventId, key)) commitFails

/-- `submit_results`: load the event, validate the submission, apply the
idempotency gate, then replace the result set. -/
def submit_results (st : SubmitState) (now ttl : Int) (eventId : Nat)
    (entries : List Entry) (idempotencyKey : Option String)
    (commitFails : Bool) : SubmitOutcome × SubmitState :=
  match findEvent st.db eventId with
  | none => (.apiError 404 "EVENT_NOT_FOUND", st)
  | some ev =>
      if !(noDupDrivers entries) then (.apiError 400 "DUPLICATE_DRIVER", st)
      else if !(noDupPositions entries) then (.apiError 400 "DUPLICATE_POSITION", st)
      else if !(driversOk st.db ev.league_id entries) then
        (.apiError 400 "MISSING_DRIVER", st)
      else submitClaimPhase st now ttl eventId ev entries idempotencyKey commitFails

/-! ## Concrete scenario data used by witnesses and counterexamples -/

/-- A season-scoped default scheme whose rule table is empty. -/
def schemeEmptyRules : PointsSchemeRow := ⟨1, some 7, true, []⟩

/-- A store holding only the empty-ruled season default scheme. -/
def dbSchemeEmpty : Db :=
  { events := [⟨10, 1, some 7, EStatus.scheduled⟩]
    drivers := []
    schemes := [schemeEmptyRules]
    results := [] }

/-- The event of `dbSchemeEmpty`. -/
def evSchemeEmpty : EventRow := ⟨10, 1, some 7, EStatus.scheduled⟩

/-- The league no-season default scheme of the resolution-hierarchy
scenario, with points table 1 to 10. -/
def schemeLeagueDefault : PointsSchemeRow := ⟨1, none, true, [(1, 10)]⟩

/-- The season-scoped default scheme of the resolution-hierarchy
scenario, with points table 1 to 20. -/
def schemeSeasonDefault : PointsSchemeRow := ⟨1, some 2, true, [(1, 20)]⟩

/-- A store holding both hierarchy schemes. -/
def dbHierarchy : Db :=
  { events := [⟨10, 1, some 2, EStatus.scheduled⟩, ⟨11, 1, some 3, EStatus.scheduled⟩]
    drivers := []
    schemes := [schemeLeagueDefault, schemeSeasonDefault]
    results := [] }

/-- An event of the hierarchy scenario inside season 2. -/
def evSeasonS : EventRow := ⟨10, 1, some 2, EStatus.scheduled⟩

/-- An event of the hierarchy scenario inside another season. -/
def evOtherSeason : EventRow := ⟨11, 1, some 3, EStatus.scheduled⟩

/-! ## C4 -/

/-- The best-finish comparison C4 claims, read literally: a missing best
finish is ordered after every real finishing position. -/
def bfNullLastLt (a b : Option Nat) : Prop :=
  match a, b with
  | some p, some q => p < q
  | some _, none => True
  | none, _ => False

instance : (a b : Option Nat) → Decidable (bfNullLastLt a b)
  | some p, some q => inferInstanceAs (Decidable (p < q))
  | some _, none => inferInstanceAs (Decidable True)
  | none, some _ => inferInstanceAs (Decidable False)
  | none, none => inferInstanceAs (Decidable False)

/-- The standings ordering claimed by C4, as stated: points descending,
wins descending, best finish ascending with null after every real
position, lowercased display name ascending. -/
def claimRowOrder (a b : StandingRow) : Prop :=
  b.points < a.points
  ∨ (a.points = b.points
      ∧ (b.wins < a.wins
        ∨ (a.wins = b.wins
          ∧ (bfNullLastLt a.best_finish b.best_finish
            ∨ (a.best_finish = b.best_finish
              ∧ charListLe (lowerChars a.display_name)
                  (lowerChars b.display_name) = true)))))

instance : (a b : StandingRow) → Decidable (claimRowOrder a b) := fun a b => by
  unfold claimRowOrder
  infer_instance

/-- The standings ordering the code implements, spelled out: the missing
best finish is compared as the sentinel rank 1,000,000. -/
def codeRowOrder (a b : StandingRow) : Prop :=
  b.points < a.points
  ∨ (a.points = b.points
      ∧ (b.wins < a.wins
        ∨ (a.wins = b.wins
          ∧ (bfRank a.best_finish < bfRank b.best_finish
            ∨ (bfRank a.best_finish = bfRank b.best_finish
              ∧ charListLe (lowerChars a.display_name)
                  (lowerChars b.display_name) = true)))))

/-- The store of the C4 counterexample: a driver with no completed
results next to a driver whose only finish position is 2,000,000. -/
def dbHugePosition : Db :=
  { events := [⟨10, 1, none, EStatus.completed⟩]
    drivers := [⟨1, 1, "a"⟩, ⟨2, 1, "b"⟩]
    schemes := []
    results := [⟨10, 2, 2000000, none, RStatus.finished, 0, 0, 0⟩] }

/-- The store of the C8 witness: one scoring driver and one driver with
no completed results. -/
def dbDriverComplete : Db :=
  { events := [⟨10, 1, none, EStatus.completed⟩]
    drivers := [⟨1, 1, "Zed"⟩, ⟨2, 1, "Amy"⟩]
    schemes := []
    results := [⟨10, 1, 1, none, RStatus.finished, 0, 0, 25⟩] }

/-! ## C9 -/

/-- A cache whose shared store is connected and accepting writes. -/
def cacheShared : CacheState := ⟨true, true, true, 300, [], []⟩

/-- A cache whose shared store never connected. -/
def cacheLocal : CacheState := ⟨false, true, true, 300, [], []⟩

theorem insertSorted_perm (le : α → α → Bool) (x : α) (l : List α) :
    List.Perm (insertSorted le x l) (x :: l) := by
  induction l with
  | nil => simp [insertSorted]
  | cons y ys ih =>
      rw [insertSorted]
      by_cases h : le x y
      · rw [if_pos h]
      · rw [if_neg h]
        exact (List.Perm.cons y ih).trans (List.Perm.swap x y ys)

theorem sortedBy_perm (le : α → α → Bool) (l : List α) :
    List.Perm (sortedBy le l) l := by
  induction l with
  | nil => simp [sortedBy]
  | cons x xs ih =>
      exact (insertSorted_perm le x (sortedBy le xs)).trans (List.Perm.cons x ih)

theorem mem_insertSorted (le : α → α → Bool) (x a : α) (l : List α) :
    a ∈ insertSorted le x l ↔ a = x ∨ a ∈ l :=
  ⟨fun h => by
      have := (insertSorted_perm le x l).mem_iff.mp h
      simpa using this,
   fun h => (insertSorted_perm le x l).symm.mem_iff.mp (by simpa using h)⟩

theorem pairwise_insertSorted (le : α → α → Bool)
    (htot : ∀ a b, le a b = true ∨ le b a = true)
    (htrans : ∀ a b c, le a b = true → le b c = true → le a c = true)
    (x : α) (l : List α)
    (h : List.Pairwise (fun a b => le a b = true) l) :
    List.Pairwise (fun a b => le a b = true) (insertSorted le x l) := by
  induction l with
  | nil => simp [insertSorted]
  | cons y ys ih =>
      rcases List.pairwise_cons.mp h with ⟨hy, hys⟩
      rw [insertSorted]
      by_cases hxy : le x y
      · rw [if_pos hxy]
        refine List.pairwise_cons.mpr ⟨?_, h⟩
        intro b hb
        rcases List.mem_cons.mp hb with rfl | hb
        · exact hxy
        · exact htrans x y b hxy (hy b hb)
      · rw [if_neg hxy]
        have hyx : le y x = true := (htot x y).resolve_left hxy
        refine List.pairwise_cons.mpr ⟨?_, ih hys⟩
        intro b hb
        rcases (mem_insertSorted le x b ys).mp hb with rfl | hb
        · exact hyx
        · exact hy b hb

theorem pairwise_sortedBy (le : α → α → Bool)
    (htot : ∀ a b, le a b = true ∨ le b a = true)
    (htrans : ∀ a b c, le a b = true → le b c = true → le a c = true)
    (l : List α) :
    List.Pairwise (fun a b => le a b = true) (sortedBy le l) := by
  induction l with
  | nil => simp [sortedBy]
  | cons x xs ih =>
      exact pairwise_insertSorted le htot htrans x (sortedBy le xs) ih

/-- A list already ascending with respect to `le` is a fixed point of the sort. -/
theorem sortedBy_of_pairwise (le : α → α → Bool) (l : List α)
    (h : List.Pairwise (fun a b => le a b = true) l) :
    sortedBy le l = l := by
  induction l with
  | nil => rfl
  | cons x xs ih =>
      rcases List.pairwise_cons.mp h with ⟨hx, hxs⟩
      have hrec : sortedBy le xs = xs := ih hxs
      rw [sortedBy, hrec]
      cases xs with
      | nil => rfl
      | cons y ys =>
          rw [insertSorted, if_pos (hx y (List.mem_cons_self y ys))]

theorem charListLe_total (a b : List Char) :
    charListLe a b = true ∨ charListLe b a = true := by
  induction a generalizing b with
  | nil => left; rfl
  | cons x xs ih =>
      cases b with
      | nil => right; rfl
      | cons y ys =>
          rw [charListLe, charListLe]
          rcases Nat.lt_trichotomy x.toNat y.toNat with h | h | h
          · left; rw [if_pos h]
          · rw [if_neg (by omega), if_neg (by omega), if_neg (by omega),
              if_neg (by omega)]
            exact ih ys
          · right; rw [if_pos h]

theorem charListLe_trans (a b c : List Char)
    (hab : charListLe a b = true) (hbc : charListLe b c = true) :
    charListLe a c = true := by
  induction a generalizing b c with
  | nil => rfl
  | cons x xs ih =>
      cases b with
      | nil => exact absurd hab (by simp [charListLe])
      | cons y ys =>
          cases c with
          | nil => exact absurd hbc (by simp [charListLe])
          | cons z zs =>
              rw [charListLe] at hab hbc ⊢
              by_cases hxy : x.toNat < y.toNat
              · rw [if_pos hxy] at hab
                by_cases hyz : y.toNat < z.toNat
                · rw [if_pos (by omega)]
                · rw [if_neg hyz] at hbc
                  by_cases hzy : z.toNat < y.toNat
                  · rw [if_pos hzy] at hbc; exact absurd hbc (by simp)
                  · rw [if_pos (by omega)]
              · rw [if_neg hxy] at hab
                by_cases hyx : y.toNat < x.toNat
                · rw [if_pos hyx] at hab; exact absurd hab (by simp)
                · rw [if_neg hyx] at hab
                  by_cases hyz : y.toNat < z.toNat
                  · rw [if_pos (by omega)]
                  · rw [if_neg hyz] at hbc
                    by_cases hzy : z.toNat < y.toNat
                    · rw [if_pos hzy] at hbc; exact absurd hbc (by simp)
                    · rw [if_neg hzy] at hbc
                      rw [if_neg (by omega), if_neg (by omega)]
                      exact ih ys zs hab hbc

theorem storeGet_storeSet_self (s : MemStore α) (k : String) (v : α) (exp : Int) :
    storeGet (storeSet s k v exp) k = some (v, exp) := by
  simp [storeGet, storeSet, List.find?]

theorem storeGet_storePop_self (s : MemStore α) (k : String) :
    storeGet (storePop s k) k = none := by
  simp only [storeGet, storePop, Option.map_eq_none', List.find?_eq_none,
    List.mem_filter]
  intro e he
  simpa using he.2

theorem claimMemory_none [DecidableEq α] {store : MemStore α} {storageKey : String}
    (payloadHash : α) (now ttl : Int)
    (h : storeGet store storageKey = none) :
    claimMemory store storageKey payloadHash now ttl
      = (.claimed, storeSet store storageKey payloadHash (now + ttl)) := by
  unfold claimMemory; rw [h]

theorem claimMemory_expired [DecidableEq α] {store : MemStore α} {storageKey : String}
    {v : α} {exp : Int} (payloadHash : α) (now ttl : Int)
    (h : storeGet store storageKey = some (v, exp)) (hexp : exp < now) :
    claimMemory store storageKey payloadHash now ttl
      = (.claimed, storeSet store storageKey payloadHash (now + ttl)) := by
  unfold claimMemory; rw [h]; dsimp only; rw [if_pos hexp]

theorem claimMemory_live_same [DecidableEq α] {store : MemStore α} {storageKey : String}
    {exp : Int} (payloadHash : α) (now ttl : Int)
    (h : storeGet store storageKey = some (payloadHash, exp)) (hexp : ¬ exp < now) :
    claimMemory store storageKey payloadHash now ttl = (.duplicate, store) := by
  unfold claimMemory; rw [h]; dsimp only; rw [if_neg hexp, if_pos rfl]

theorem claimMemory_live_other [DecidableEq α] {store : MemStore α} {storageKey : String}
    {v : α} {exp : Int} (payloadHash : α) (now ttl : Int)
    (h : storeGet store storageKey = some (v, exp)) (hexp : ¬ exp < now)
    (hv : v ≠ payloadHash) :
    claimMemory store storageKey payloadHash now ttl = (.conflict, store) := by
  unfold claimMemory; rw [h]; dsimp only; rw [if_neg hexp, if_neg hv]

theorem claimMemory_eq_duplicate [DecidableEq α] (store : MemStore α)
    (storageKey : String) (payloadHash : α) (now ttl : Int)
    (h : (claimMemory store storageKey payloadHash now ttl).1 = .duplicate) :
    claimMemory store storageKey payloadHash now ttl = (.duplicate, store) := by
  rcases hg : storeGet store storageKey with _ | ⟨v, exp⟩
  · rw [claimMemory_none payloadHash now ttl hg] at h
    exact absurd h (by simp)
  · by_cases hexp : exp < now
    · rw [claimMemory_expired payloadHash now ttl hg hexp] at h
      exact absurd h (by simp)
    · by_cases hv : v = payloadHash
      · rw [hv] at hg
        exact claimMemory_live_same payloadHash now ttl hg hexp
      · rw [claimMemory_live_other payloadHash now ttl hg hexp hv] at h
        exact absurd h (by simp)

theorem claimMemory_eq_conflict [DecidableEq α] (store : MemStore α)
    (storageKey : String) (payloadHash : α) (now ttl : Int)
    (h : (claimMemory store storageKey payloadHash now ttl).1 = .conflict) :
    claimMemory store storageKey payloadHash now ttl = (.conflict, store) := by
  rcases hg : storeGet store storageKey with _ | ⟨v, exp⟩
  · rw [claimMemory_none payloadHash now ttl hg] at h
    exact absurd h (by simp)
  · by_cases hexp : exp < now
    · rw [claimMemory_expired payloadHash now ttl hg hexp] at h
      exact absurd h (by simp)
    · by_cases hv : v = payloadHash
      · rw [hv] at hg
        rw [claimMemory_live_same payloadHash now ttl hg hexp] at h
        exact absurd h (by simp)
      · exact claimMemory_live_other payloadHash now ttl hg hexp hv

theorem claimMemory_eq_claimed [DecidableEq α] (store : MemStore α)
    (storageKey : String) (payloadHash : α) (now ttl : Int)
    (h : (claimMemory store storageKey payloadHash now ttl).1 = .claimed) :
    claimMemory store storageKey payloadHash now ttl
      = (.claimed, storeSet store storageKey payloadHash (now + ttl)) := by
  rcases hg : storeGet store storageKey with _ | ⟨v, exp⟩
  · exact claimMemory_none payloadHash now ttl hg
  · by_cases hexp : exp < now
    · exact claimMemory_expired payloadHash now ttl hg hexp
    · by_cases hv : v = payloadHash
      · rw [hv] at hg
        rw [claimMemory_live_same payloadHash now ttl hg hexp] at h
        exact absurd h (by simp)
      · rw [claimMemory_live_other payloadHash now ttl hg hexp hv] at h
        exact absurd h (by simp)

theorem keyLe_total (a b : Int × Int × Int × List Char) :
    keyLe a b = true ∨ keyLe b a = true := by
  unfold keyLe
  split_ifs <;>
    (try simp only [decide_eq_true_eq]) <;>
    first
      | omega
      | exact charListLe_total _ _

theorem keyLe_trans (a b c : Int × Int × Int × List Char)
    (hab : keyLe a b = true) (hbc : keyLe b c = true) : keyLe a c = true := by
  unfold keyLe at hab hbc ⊢
  split_ifs at hab hbc ⊢ <;>
    (try simp only [decide_eq_true_eq, Bool.false_eq_true] at hab hbc ⊢) <;>
    first
      | omega
      | exact charListLe_trans _ _ _ hab hbc

theorem rowLe_total (a b : StandingRow) : rowLe a b = true ∨ rowLe b a = true :=
  keyLe_total (sortKey a) (sortKey b)

theorem rowLe_trans (a b c : StandingRow)
    (hab : rowLe a b = true) (hbc : rowLe b c = true) : rowLe a c = true :=
  keyLe_trans (sortKey a) (sortKey b) (sortKey c) hab hbc

/-! ## Helper lemmas -/

theorem pyLower_append (a b : String) : pyLower (a ++ b) = pyLower a ++ pyLower b := by
  apply String.ext
  simp [pyLower, String.data_append]

theorem idemBuildKey_congr (scope key1 key2 : String)
    (h : pyLower key1 = pyLower key2) :
    idemBuildKey scope key1 = idemBuildKey scope key2 := by
  unfold idemBuildKey
  simp only [pyLower_append, h]

/-- The built-in fallback table evaluates to the classic top-10 list. -/
theorem fallback_table_eval :
    build_points_map default_points_entries
      = [(1, 25), (2, 18), (3, 15), (4, 12), (5, 10), (6, 8), (7, 6), (8, 4), (9, 2), (10, 1)] := by
  decide

/-! ## C3 -/

/-- C3: for every base points value B and entry with bonus and penalty at
least 0, the computed total is max(0, B + bonus - penalty), and the
total_points stored on the inserted Result row is the floored sum of the
resolved base points, the bonus, and the penalty. -/
theorem C3_total_points_floor :
    (∀ B bonus penalty : Int, 0 ≤ bonus → 0 ≤ penalty →
      compute_total_points B bonus penalty = max 0 (B + bonus - penalty))
    ∧ ∀ (points_map : List (Nat × Int)) (eventId : Nat) (e : Entry),
        (buildResultRow points_map eventId e).total_points
          = max 0 (pointsGet points_map e.finish_position
              + e.bonus_points - e.penalty_points) := by
  constructor
  · intro B bonus penalty _ _
    unfold compute_total_points
    dsimp only
    split_ifs with h <;> omega
  · intro pm eid e
    unfold buildResultRow compute_total_points
    dsimp only
    split_ifs with h <;> omega

/-- Witness for C3: B=1, bonus=0, penalty=5 gives total 0. -/
theorem C3_total_points_floor_witness : compute_total_points 1 0 5 = 0 :=
  (C3_total_points_floor.1 1 0 5 (by decide) (by decide)).trans (by decide)

/-! ## C10 -/

/-- C10: an entry whose finish position is absent from the resolved
points table gets base points 0, so its stored total_points is
max(0, bonus - penalty). -/
theorem C10_missing_position_zero_base :
    ∀ (points_map : List (Nat × Int)) (eventId : Nat) (e : Entry),
      List.find? (fun p => p.1 == e.finish_position) points_map = none →
      pointsGet points_map e.finish_position = 0
      ∧ (buildResultRow points_map eventId e).total_points
          = max 0 (e.bonus_points - e.penalty_points) := by
  intro pm eid e h
  have hz : pointsGet pm e.finish_position = 0 := by
    unfold pointsGet
    rw [h]
  refine ⟨hz, ?_⟩
  unfold buildResultRow
  dsimp only
  rw [hz]
  unfold compute_total_points
  dsimp only
  split_ifs with h' <;> omega

/-- Witness for C10: position 11 under the built-in top-10 table. -/
theorem C10_missing_position_zero_base_witness :
    pointsGet (build_points_map default_points_entries) 11 = 0
    ∧ (buildResultRow (build_points_map default_points_entries) 10
        ⟨7, 11, none, RStatus.finished, 3, 1⟩).total_points = max 0 (3 - 1) := by
  have h := C10_missing_position_zero_base (build_points_map default_points_entries) 10
    ⟨7, 11, none, RStatus.finished, 3, 1⟩ (by decide)
  exact h

/-! ## C5 -/

/-- Counterexample to C5 as stated: a default scheme scoped to the exact
season of the event exists, but its (empty) rule table is not used -
resolution returns the built-in fallback table instead. -/
theorem C5_counterexample :
    findSeasonDefaultScheme dbSchemeEmpty evSchemeEmpty = some schemeEmptyRules
    ∧ load_points_scheme dbSchemeEmpty evSchemeEmpty
        ≠ build_points_map (sortRules schemeEmptyRules.rules)
    ∧ load_points_scheme dbSchemeEmpty evSchemeEmpty
        = build_points_map default_points_entries := by
  refine ⟨by decide, by decide, by decide⟩

/-- C5 (amended): resolution is first-match-wins on scheme existence -
the season-scoped default first, else the league no-season default.  The
rule table of the selected scheme is used when it is non-empty; when no
scheme matched, or the selected scheme has an empty rule set, the
built-in fallback table 25,18,15,12,10,8,6,4,2,1 for positions 1 to 10
is used. -/
theorem C5_points_resolution_hierarchy :
    ∀ (db : Db) (ev : EventRow),
      (∀ s, findSeasonDefaultScheme db ev = some s → s.rules ≠ [] →
        load_points_scheme db ev = build_points_map (sortRules s.rules))
      ∧ (findSeasonDefaultScheme db ev = none →
          ∀ s, findLeagueDefaultScheme db ev = some s → s.rules ≠ [] →
            load_points_scheme db ev = build_points_map (sortRules s.rules))
      ∧ (findSeasonDefaultScheme db ev = none →
          findLeagueDefaultScheme db ev = none →
          load_points_scheme db ev
            = [(1, 25), (2, 18), (3, 15), (4, 12), (5, 10), (6, 8),
               (7, 6), (8, 4), (9, 2), (10, 1)])
      ∧ (∀ s, (findSeasonDefaultScheme db ev = some s
            ∨ (findSeasonDefaultScheme db ev = none
                ∧ findLeagueDefaultScheme db ev = some s)) →
          s.rules = [] →
          load_points_scheme db ev
            = [(1, 25), (2, 18), (3, 15), (4, 12), (5, 10), (6, 8),
               (7, 6), (8, 4), (9, 2), (10, 1)]) := by
  intro db ev
  refine ⟨?_, ?_, ?_, ?_⟩
  · intro s hs hne
    unfold load_points_scheme
    rw [hs]
    dsimp only
    rw [if_neg (by simpa [List.isEmpty_iff] using hne)]
  · intro hnone s hs hne
    unfold load_points_scheme
    rw [hnone, hs]
    dsimp only
    rw [if_neg (by simpa [List.isEmpty_iff] using hne)]
  · intro hnone hnone2
    unfold load_points_scheme
    rw [hnone, hnone2]
    dsimp only
    exact fallback_table_eval
  · intro s hsel hempty
    unfold load_points_scheme
    rcases hsel with hs | ⟨hn, hs⟩
    · rw [hs]
      dsimp only
      rw [if_pos (by simp [List.isEmpty_iff, hempty])]
      exact fallback_table_eval
    · rw [hn, hs]
      dsimp only
      rw [if_pos (by simp [List.isEmpty_iff, hempty])]
      exact fallback_table_eval

/-- Witness for the amended C5: with a league default of 1 to 10 points
and a season-2 default of 1 to 20 points, an event in season 2 resolves
to the season table and an event in season 3 resolves to the league
table. -/
theorem C5_points_resolution_hierarchy_witness :
    load_points_scheme dbHierarchy evSeasonS = [(1, 20)]
    ∧ load_points_scheme dbHierarchy evOtherSeason = [(1, 10)] := by
  constructor
  · exact ((C5_points_resolution_hierarchy dbHierarchy evSeasonS).1
      schemeSeasonDefault (by decide) (by decide)).trans (by decide)
  · exact ((C5_points_resolution_hierarchy dbHierarchy evOtherSeason).2.1
      (by decide) schemeLeagueDefault (by decide) (by decide)).trans (by decide)

/-! ## C6 -/

/-- C6: on the process-local backend, claim returns claimed exactly when
no record exists under the lowercased namespaced key or the existing
record expired (storing the fingerprint with expiry now + TTL), duplicate
exactly when an unexpired record holds an equal fingerprint, conflict
exactly when an unexpired record holds a different fingerprint; keys
equal up to letter case address the same record. -/
theorem C6_claim_memory_characterization :
    ∀ (store : MemStore String) (scope key fp : String) (now ttl : Int),
      ((idemClaim store scope key fp now ttl).1 = ClaimOutcome.claimed ↔
        (storeGet store (idemBuildKey scope key) = none
          ∨ ∃ v e, storeGet store (idemBuildKey scope key) = some (v, e) ∧ e < now))
      ∧ ((idemClaim store scope key fp now ttl).1 = ClaimOutcome.claimed →
          storeGet (idemClaim store scope key fp now ttl).2 (idemBuildKey scope key)
            = some (fp, now + ttl))
      ∧ ((idemClaim store scope key fp now ttl).1 = ClaimOutcome.duplicate ↔
          ∃ e, storeGet store (idemBuildKey scope key) = some (fp, e) ∧ ¬ e < now)
      ∧ ((idemClaim store scope key fp now ttl).1 = ClaimOutcome.conflict ↔
          ∃ v e, storeGet store (idemBuildKey scope key) = some (v, e)
            ∧ ¬ e < now ∧ v ≠ fp)
      ∧ ∀ key2, pyLower key2 = pyLower key →
          idemBuildKey scope key2 = idemBuildKey scope key := by
  intro store scope key fp now ttl
  refine ⟨?_, ?_, ?_, ?_, fun key2 h => idemBuildKey_congr scope key2 key h⟩
  · constructor
    · intro hcl
      rcases hg : storeGet store (idemBuildKey scope key) with _ | ⟨v, exp⟩
      · exact Or.inl rfl
      · by_cases hexp : exp < now
        · exact Or.inr ⟨v, exp, rfl, hexp⟩
        · by_cases hv : v = fp
          · rw [hv] at hg
            unfold idemClaim at hcl
            rw [claimMemory_live_same fp now ttl hg hexp] at hcl
            exact absurd hcl (by simp)
          · unfold idemClaim at hcl
            rw [claimMemory_live_other fp now ttl hg hexp hv] at hcl
            exact absurd hcl (by simp)
    · intro hpre
      rcases hpre with hnone | ⟨v, exp, hsome, hexp⟩
      · unfold idemClaim
        rw [claimMemory_none fp now ttl hnone]
      · unfold idemClaim
        rw [claimMemory_expired fp now ttl hsome hexp]
  · intro hcl
    unfold idemClaim at hcl ⊢
    rw [claimMemory_eq_claimed _ _ _ _ _ hcl]
    exact storeGet_storeSet_self _ _ _ _
  · constructor
    · intro hd
      rcases hg : storeGet store (idemBuildKey scope key) with _ | ⟨v, exp⟩
      · unfold idemClaim at hd
        rw [claimMemory_none fp now ttl hg] at hd
        exact absurd hd (by simp)
      · by_cases hexp : exp < now
        · unfold idemClaim at hd
          rw [claimMemory_expired fp now ttl hg hexp] at hd
          exact absurd hd (by simp)
        · by_cases hv : v = fp
          · exact ⟨exp, by rw [hv], hexp⟩
          · unfold idemClaim at hd
            rw [claimMemory_live_other fp now ttl hg hexp hv] at hd
            exact absurd hd (by simp)
    · rintro ⟨exp, hsome, hexp⟩
      unfold idemClaim
      rw [claimMemory_live_same fp now ttl hsome hexp]
  · constructor
    · intro hc
      rcases hg : storeGet store (idemBuildKey scope key) with _ | ⟨v, exp⟩
      · unfold idemClaim at hc
        rw [claimMemory_none fp now ttl hg] at hc
        exact absurd hc (by simp)
      · by_cases hexp : exp < now
        · unfold idemClaim at hc
          rw [claimMemory_expired fp now ttl hg hexp] at hc
          exact absurd hc (by simp)
        · by_cases hv : v = fp
          · rw [hv] at hg
            unfold idemClaim at hc
            rw [claimMemory_live_same fp now ttl hg hexp] at hc
            exact absurd hc (by simp)
          · exact ⟨v, exp, rfl, hexp, hv⟩
    · rintro ⟨v, exp, hsome, hexp, hv⟩
      unfold idemClaim
      rw [claimMemory_live_other fp now ttl hsome hexp hv]

/-- Witness for C6: a fresh claim on the empty store is claimed and
stores the fingerprint; keys differing only in case build the same
storage key. -/
theorem C6_claim_memory_characterization_witness :
    (idemClaim ([] : MemStore String) "results:10" "AbC" "fp" 0 600).1
      = ClaimOutcome.claimed
    ∧ idemBuildKey "results:10" "KeY" = idemBuildKey "results:10" "key" := by
  constructor
  · exact (C6_claim_memory_characterization [] "results:10" "AbC" "fp" 0 600).1.mpr
      (Or.inl (by decide))
  · exact (C6_claim_memory_characterization [] "results:10" "key" "fp" 0 600).2.2.2.2
      "KeY" (by decide)

/-! ## Reduction lemmas for the submit handler -/

theorem submit_results_claim_phase (st : SubmitState) (now ttl : Int) (eventId : Nat)
    (entries : List Entry) (key : Option String) (cf : Bool) (ev : EventRow)
    (hev : findEvent st.db eventId = some ev)
    (h1 : noDupDrivers entries = true)
    (h2 : noDupPositions entries = true)
    (h3 : driversOk st.db ev.league_id entries = true) :
    submit_results st now ttl eventId entries key cf
      = submitClaimPhase st now ttl eventId ev entries key cf := by
  unfold submit_results
  rw [hev]
  dsimp only
  rw [h1, h2, h3]
  simp only [Bool.not_true, Bool.false_eq_true, if_false]

theorem decideNatLe_total (f : α → Nat) (a b : α) :
    decide (f a ≤ f b) = true ∨ decide (f b ≤ f a) = true := by
  rcases Nat.le_total (f a) (f b) with h | h
  · exact Or.inl (by simpa using h)
  · exact Or.inr (by simpa using h)

theorem decideNatLe_trans (f : α → Nat) (a b c : α)
    (hab : decide (f a ≤ f b) = true) (hbc : decide (f b ≤ f c) = true) :
    decide (f a ≤ f c) = true := by
  simp only [decide_eq_true_eq] at hab hbc ⊢
  omega

/-- The response items are ascending in finish position. -/
theorem pairwise_items_sorted (rs : List ResultRow) :
    List.Pairwise (fun a b : ItemRead => a.finish_position ≤ b.finish_position)
      (List.map resultToItem (sortByFinish rs)) := by
  rw [List.pairwise_map]
  have hp := pairwise_sortedBy
    (fun a b : ResultRow => decide (a.finish_position ≤ b.finish_position))
    (decideNatLe_total (fun r : ResultRow => r.finish_position))
    (decideNatLe_trans (fun r : ResultRow => r.finish_position)) rs
  exact hp.imp (fun h => by simpa using h)

/-- Marking the event COMPLETED preserves its position in the events
table: the lookup finds the updated row. -/
theorem findEvent_mark_completed (events : List EventRow) (eid : Nat) (ev : EventRow)
    (h : List.find? (fun e => e.id == eid) events = some ev) :
    List.find? (fun e => e.id == eid)
      (List.map
        (fun e => if e.id == eid then { e with status := EStatus.completed } else e)
        events)
      = some { ev with status := EStatus.completed } := by
  have hid : (ev.id == eid) = true :=
    @List.find?_some EventRow (fun e => e.id == eid) ev events h
  rw [List.find?_map]
  have hpred : ((fun e : EventRow => e.id == eid)
        ∘ (fun e => if e.id == eid then { e with status := EStatus.completed } else e))
      = (fun e : EventRow => e.id == eid) := by
    funext e
    by_cases he : (e.id == eid) = true
    · simp only [Function.comp, if_pos he]
    · simp only [Function.comp, if_neg he]
  rw [hpred, h, Option.map_some', if_pos hid]

/-- After the replace-all mutation, the result rows of the event are
exactly the inserted rows. -/
theorem resultsFor_replaced (db : Db) (eid : Nat) (newRows : List ResultRow)
    (events' : List EventRow)
    (hall : ∀ r ∈ newRows, r.event_id = eid) :
    resultsFor
      { db with
        results := List.filter (fun r => !(r.event_id == eid)) db.results ++ newRows
        events := events' }
      eid = newRows := by
  unfold resultsFor
  dsimp only
  rw [List.filter_append, List.filter_filter]
  have h1 : List.filter
      (fun a => (a.event_id == eid) && !(a.event_id == eid)) db.results = [] := by
    apply List.filter_eq_nil_iff.mpr
    intro r _
    simp
  have h2 : List.filter (fun r => r.event_id == eid) newRows = newRows := by
    apply List.filter_eq_self.mpr
    intro r hr
    simpa using hall r hr
  rw [h1, h2, List.nil_append]

theorem noDupDrivers_nodup (entries : List Entry) (h : noDupDrivers entries = true) :
    (List.map (fun e => e.driver_id) entries).Nodup := by
  unfold noDupDrivers at h
  simp only [beq_iff_eq] at h
  have hlen : (List.map (fun e => e.driver_id) entries).dedup.length
      = (List.map (fun e => e.driver_id) entries).length := by
    rw [h, List.length_map]
  have heq := List.Sublist.eq_of_length
    (List.dedup_sublist (List.map (fun e => e.driver_id) entries)) hlen
  exact List.dedup_eq_self.mp heq

/-! ## C2 -/

/-- C2: a submission whose idempotency claim is a conflict is rejected
with HTTP 409 and code IDEMPOTENCY_CONFLICT, and neither the persisted
Result rows, the event status, nor the idempotency store change. -/
theorem C2_conflict_rejected :
    ∀ (st : SubmitState) (now ttl : Int) (eventId : Nat) (entries : List Entry)
      (key : String) (cf : Bool) (ev : EventRow),
      findEvent st.db eventId = some ev →
      noDupDrivers entries = true →
      noDupPositions entries = true →
      driversOk st.db ev.league_id entries = true →
      (idemClaim st.idem (resultsScope eventId) key
          (payloadFingerprint entries) now ttl).1 = ClaimOutcome.conflict →
      submit_results st now ttl eventId entries (some key) cf
        = (SubmitOutcome.apiError 409 "IDEMPOTENCY_CONFLICT", st) := by
  intro st now ttl eid entries key cf ev hev h1 h2 h3 hc
  rw [submit_results_claim_phase st now ttl eid entries (some key) cf ev hev h1 h2 h3]
  unfold submitClaimPhase
  dsimp only
  unfold idemClaim at hc ⊢
  rw [claimMemory_eq_conflict _ _ _ _ _ hc]

/-- Witness for C2: a store already holding the key with a different
fingerprint rejects the submission and leaves the state unchanged. -/
theorem C2_conflict_rejected_witness :
    submit_results
      ⟨⟨[⟨10, 1, none, EStatus.scheduled⟩], [⟨1, 1, "Alice"⟩], [], []⟩,
        [(idemBuildKey (resultsScope 10) "K", [(9, 9, 9, 9)], 600)]⟩
      0 600 10 [⟨1, 1, none, RStatus.finished, 0, 0⟩] (some "K") false
      = (SubmitOutcome.apiError 409 "IDEMPOTENCY_CONFLICT",
        ⟨⟨[⟨10, 1, none, EStatus.scheduled⟩], [⟨1, 1, "Alice"⟩], [], []⟩,
          [(idemBuildKey (resultsScope 10) "K", [(9, 9, 9, 9)], 600)]⟩) := by
  exact C2_conflict_rejected _ 0 600 10 _ "K" false ⟨10, 1, none, EStatus.scheduled⟩
    (by decide) (by decide) (by decide) (by decide) (by decide)

/-! ## C7 -/

/-- C7: when a key was claimed and the commit raises, the transaction is
rolled back (the relational store is unchanged), the claimed key is
released, and a retry with the same key claims successfully. -/
theorem C7_rollback_releases_claim :
    ∀ (st : SubmitState) (now ttl : Int) (eventId : Nat) (entries : List Entry)
      (key : String) (ev : EventRow),
      findEvent st.db eventId = some ev →
      noDupDrivers entries = true →
      noDupPositions entries = true →
      driversOk st.db ev.league_id entries = true →
      (idemClaim st.idem (resultsScope eventId) key
          (payloadFingerprint entries) now ttl).1 = ClaimOutcome.claimed →
      (submit_results st now ttl eventId entries (some key) true).1
          = SubmitOutcome.internalError
      ∧ (submit_results st now ttl eventId entries (some key) true).2.db = st.db
      ∧ storeGet (submit_results st now ttl eventId entries (some key) true).2.idem
          (idemBuildKey (resultsScope eventId) key) = none
      ∧ ∀ now2 : Int,
          (idemClaim (submit_results st now ttl eventId entries (some key) true).2.idem
            (resultsScope eventId) key (payloadFingerprint entries) now2 ttl).1
            = ClaimOutcome.claimed := by
  intro st now ttl eid entries key ev hev h1 h2 h3 hcl
  have hs : submit_results st now ttl eid entries (some key) true
      = (SubmitOutcome.internalError,
        ⟨st.db,
          idemRelease
            (storeSet st.idem (idemBuildKey (resultsScope eid) key)
              (payloadFingerprint entries) (now + ttl))
            (resultsScope eid) key⟩) := by
    rw [submit_results_claim_phase st now ttl eid entries (some key) true ev hev h1 h2 h3]
    unfold submitClaimPhase
    dsimp only
    unfold idemClaim at hcl ⊢
    rw [claimMemory_eq_claimed _ _ _ _ _ hcl]
    rfl
  rw [hs]
  have hnone : storeGet
      (idemRelease
        (storeSet st.idem (idemBuildKey (resultsScope eid) key)
          (payloadFingerprint entries) (now + ttl))
        (resultsScope eid) key)
      (idemBuildKey (resultsScope eid) key) = none :=
    storeGet_storePop_self _ _
  refine ⟨rfl, rfl, hnone, ?_⟩
  intro now2
  unfold idemClaim
  rw [claimMemory_none (payloadFingerprint entries) now2 ttl hnone]

/-- Witness for C7: a failing commit after a fresh claim leaves the
store untouched and the key free again. -/
theorem C7_rollback_releases_claim_witness :
    (submit_results ⟨⟨[⟨10, 1, none, EStatus.scheduled⟩], [⟨1, 1, "Alice"⟩], [], []⟩, []⟩
        0 600 10 [⟨1, 1, none, RStatus.finished, 0, 0⟩] (some "K") true).1
      = SubmitOutcome.internalError
    ∧ (submit_results ⟨⟨[⟨10, 1, none, EStatus.scheduled⟩], [⟨1, 1, "Alice"⟩], [], []⟩, []⟩
        0 600 10 [⟨1, 1, none, RStatus.finished, 0, 0⟩] (some "K") true).2.db
      = ⟨[⟨10, 1, none, EStatus.scheduled⟩], [⟨1, 1, "Alice"⟩], [], []⟩ := by
  have h := C7_rollback_releases_claim
    ⟨⟨[⟨10, 1, none, EStatus.scheduled⟩], [⟨1, 1, "Alice"⟩], [], []⟩, []⟩
    0 600 10 [⟨1, 1, none, RStatus.finished, 0, 0⟩] "K" ⟨10, 1, none, EStatus.scheduled⟩
    (by decide) (by decide) (by decide) (by decide) (by decide)
  exact ⟨h.1, h.2.1⟩

/-! ## C1 -/

theorem newResultRows_event_id (points_map : List (Nat × Int)) (ev : EventRow)
    (entries : List Entry) :
    ∀ r ∈ newResultRows points_map ev entries, r.event_id = ev.id := by
  intro r hr
  rcases List.mem_map.mp hr with ⟨e, _, rfl⟩
  rfl

theorem resultsFor_mutatedDb (db : Db) (ev : EventRow)
    (points_map : List (Nat × Int)) (entries : List Entry) :
    resultsFor (mutatedDb db ev points_map entries) ev.id
      = newResultRows points_map ev entries := by
  unfold mutatedDb
  exact resultsFor_replaced db ev.id (newResultRows points_map ev entries) _
    (newResultRows_event_id points_map ev entries)

theorem findEvent_mutatedDb (db : Db) (ev : EventRow)
    (points_map : List (Nat × Int)) (entries : List Entry) (eid : Nat)
    (hev : findEvent db eid = some ev) :
    findEvent (mutatedDb db ev points_map entries) eid
      = some { ev with status := EStatus.completed } := by
  have hevid : ev.id = eid := by
    simpa using @List.find?_some EventRow (fun e => e.id == eid) ev db.events hev
  subst hevid
  unfold findEvent mutatedDb
  dsimp only
  exact findEvent_mark_completed db.events ev.id ev hev

/-- C1: a submission whose idempotency claim is a duplicate performs no
deletion or insertion of Result rows and returns the persisted result
set of the event ordered by finish position; consequently submitting the
same entries twice under one fresh key within the TTL returns the same
response both times and leaves exactly one result per driver for the
event. -/
theorem C1_duplicate_returns_persisted :
    (∀ (st : SubmitState) (now ttl : Int) (eventId : Nat) (entries : List Entry)
        (key : String) (cf : Bool) (ev : EventRow),
      findEvent st.db eventId = some ev →
      noDupDrivers entries = true →
      noDupPositions entries = true →
      driversOk st.db ev.league_id entries = true →
      (idemClaim st.idem (resultsScope eventId) key
          (payloadFingerprint entries) now ttl).1 = ClaimOutcome.duplicate →
      submit_results st now ttl eventId entries (some key) cf
        = (SubmitOutcome.ok (build_response ev (sortByFinish (resultsFor st.db ev.id))), st)
      ∧ List.Pairwise (fun a b : ItemRead => a.finish_position ≤ b.finish_position)
          (build_response ev (sortByFinish (resultsFor st.db ev.id))).items)
    ∧ ∀ (st : SubmitState) (now1 now2 ttl : Int) (eventId : Nat) (entries : List Entry)
        (key : String) (ev : EventRow),
      findEvent st.db eventId = some ev →
      noDupDrivers entries = true →
      noDupPositions entries = true →
      driversOk st.db ev.league_id entries = true →
      storeGet st.idem (idemBuildKey (resultsScope eventId) key) = none →
      ¬ now1 + ttl < now2 →
      ∃ resp,
        (submit_results st now1 ttl eventId entries (some key) false).1
          = SubmitOutcome.ok resp
        ∧ submit_results (submit_results st now1 ttl eventId entries (some key) false).2
            now2 ttl eventId entries (some key) false
          = (SubmitOutcome.ok resp,
            (submit_results st now1 ttl eventId entries (some key) false).2)
        ∧ (List.map (fun r => r.driver_id)
            (resultsFor (submit_results st now1 ttl eventId entries (some key) false).2.db
              eventId)).Nodup := by
  constructor
  · intro st now ttl eid entries key cf ev hev h1 h2 h3 hdup
    constructor
    · rw [submit_results_claim_phase st now ttl eid entries (some key) cf ev hev h1 h2 h3]
      unfold submitClaimPhase
      dsimp only
      unfold idemClaim at hdup ⊢
      rw [claimMemory_eq_duplicate _ _ _ _ _ hdup]
    · exact pairwise_items_sorted _
  · intro st now1 now2 ttl eid entries key ev hev h1 h2 h3 hfresh httl
    have hevid : ev.id = eid := by
      simpa using @List.find?_some EventRow (fun e => e.id == eid) ev st.db.events hev
    have hrun1 : submit_results st now1 ttl eid entries (some key) false
        = (SubmitOutcome.ok (build_response { ev with status := EStatus.completed }
              (sortByFinish (resultsFor
                (mutatedDb st.db ev (load_points_scheme st.db ev) entries) ev.id))),
          ⟨mutatedDb st.db ev (load_points_scheme st.db ev) entries,
            storeSet st.idem (idemBuildKey (resultsScope eid) key)
              (payloadFingerprint entries) (now1 + ttl)⟩) := by
      rw [submit_results_claim_phase st now1 ttl eid entries (some key) false ev hev h1 h2 h3]
      unfold submitClaimPhase
      dsimp only
      unfold idemClaim
      rw [claimMemory_none (payloadFingerprint entries) now1 ttl hfresh]
      rfl
    have hstore : storeGet
        (storeSet st.idem (idemBuildKey (resultsScope eid) key)
          (payloadFingerprint entries) (now1 + ttl))
        (idemBuildKey (resultsScope eid) key)
        = some (payloadFingerprint entries, now1 + ttl) :=
      storeGet_storeSet_self _ _ _ _
    have hfind2 : findEvent (mutatedDb st.db ev (load_points_scheme st.db ev) entries) eid
        = some { ev with status := EStatus.completed } :=
      findEvent_mutatedDb st.db ev (load_points_scheme st.db ev) entries eid hev
    have hrun2 : submit_results
        ⟨mutatedDb st.db ev (load_points_scheme st.db ev) entries,
          storeSet st.idem (idemBuildKey (resultsScope eid) key)
            (payloadFingerprint entries) (now1 + ttl)⟩
        now2 ttl eid entries (some key) false
        = (SubmitOutcome.ok (build_response { ev with status := EStatus.completed }
              (sortByFinish (resultsFor
                (mutatedDb st.db ev (load_points_scheme st.db ev) entries) ev.id))),
          ⟨mutatedDb st.db ev (load_points_scheme st.db ev) entries,
            storeSet st.idem (idemBuildKey (resultsScope eid) key)
              (payloadFingerprint entries) (now1 + ttl)⟩) := by
      rw [submit_results_claim_phase
        ⟨mutatedDb st.db ev (load_points_scheme st.db ev) entries,
          storeSet st.idem (idemBuildKey (resultsScope eid) key)
            (payloadFingerprint entries) (now1 + ttl)⟩
        now2 ttl eid entries (some key) false
        { ev with status := EStatus.completed } hfind2 h1 h2 h3]
      unfold submitClaimPhase
      dsimp only
      unfold idemClaim
      rw [claimMemory_live_same (payloadFingerprint entries) now2 ttl hstore httl]
    refine ⟨build_response { ev with status := EStatus.completed }
        (sortByFinish (resultsFor
          (mutatedDb st.db ev (load_points_scheme st.db ev) entries) ev.id)),
      ?_, ?_, ?_⟩
    · rw [hrun1]
    · rw [hrun1]
      exact hrun2
    · rw [hrun1]
      dsimp only
      rw [← hevid, resultsFor_mutatedDb]
      have hmap : List.map (fun r => r.driver_id)
          (newResultRows (load_points_scheme st.db ev) ev entries)
          = List.map (fun e => e.driver_id)
            (sortedBy (fun a b => decide (a.finish_position ≤ b.finish_position)) entries) := by
        unfold newResultRows
        rw [List.map_map]
        rfl
      rw [hmap]
      have hperm := sortedBy_perm
        (fun a b : Entry => decide (a.finish_position ≤ b.finish_position)) entries
      exact ((hperm.map (fun e => e.driver_id)).symm).nodup (noDupDrivers_nodup entries h1)

/-- Witness for C1: two drivers, one fresh key, submitted twice. -/
theorem C1_duplicate_returns_persisted_witness :
    ∃ resp,
      (submit_results ⟨⟨[⟨10, 1, none, EStatus.scheduled⟩],
          [⟨1, 1, "Alice"⟩, ⟨2, 1, "Bob"⟩], [], []⟩, []⟩
        0 600 10
        [⟨2, 2, none, RStatus.finished, 0, 0⟩, ⟨1, 1, none, RStatus.finished, 1, 0⟩]
        (some "K") false).1 = SubmitOutcome.ok resp
      ∧ submit_results
          (submit_results ⟨⟨[⟨10, 1, none, EStatus.scheduled⟩],
              [⟨1, 1, "Alice"⟩, ⟨2, 1, "Bob"⟩], [], []⟩, []⟩
            0 600 10
            [⟨2, 2, none, RStatus.finished, 0, 0⟩, ⟨1, 1, none, RStatus.finished, 1, 0⟩]
            (some "K") false).2
          500 600 10
          [⟨2, 2, none, RStatus.finished, 0, 0⟩, ⟨1, 1, none, RStatus.finished, 1, 0⟩]
          (some "K") false
        = (SubmitOutcome.ok resp,
          (submit_results ⟨⟨[⟨10, 1, none, EStatus.scheduled⟩],
              [⟨1, 1, "Alice"⟩, ⟨2, 1, "Bob"⟩], [], []⟩, []⟩
            0 600 10
            [⟨2, 2, none, RStatus.finished, 0, 0⟩, ⟨1, 1, none, RStatus.finished, 1, 0⟩]
            (some "K") false).2) :=
  match C1_duplicate_returns_persisted.2
    ⟨⟨[⟨10, 1, none, EStatus.scheduled⟩], [⟨1, 1, "Alice"⟩, ⟨2, 1, "Bob"⟩], [], []⟩, []⟩
    0 500 600 10
    [⟨2, 2, none, RStatus.finished, 0, 0⟩, ⟨1, 1, none, RStatus.finished, 1, 0⟩]
    "K" ⟨10, 1, none, EStatus.scheduled⟩
    (by decide) (by decide) (by decide) (by decide) (by decide) (by decide) with
  | ⟨resp, ha, hb, _⟩ => ⟨resp, ha, hb⟩

theorem rowLe_iff (a b : StandingRow) : rowLe a b = true ↔ codeRowOrder a b := by
  unfold rowLe keyLe sortKey codeRowOrder
  dsimp only
  split_ifs with h1 h2 h3
  · simp only [decide_eq_true_eq]
    constructor
    · intro h
      exact Or.inl (by omega)
    · rintro (h | ⟨heq, hrest⟩) <;> omega
  · simp only [decide_eq_true_eq]
    constructor
    · intro h
      exact Or.inr ⟨by omega, Or.inl (by omega)⟩
    · rintro (h | ⟨heq, h | ⟨hweq, hrest⟩⟩) <;> omega
  · simp only [decide_eq_true_eq]
    constructor
    · intro h
      exact Or.inr ⟨by omega, Or.inr ⟨by omega, Or.inl (by omega)⟩⟩
    · rintro (h | ⟨heq, h | ⟨hweq, h | ⟨hbeq, hrest⟩⟩⟩) <;> omega
  · constructor
    · intro h
      exact Or.inr ⟨by omega, Or.inr ⟨by omega, Or.inr ⟨by omega, h⟩⟩⟩
    · rintro (h | ⟨heq, h | ⟨hweq, h | ⟨hbeq, hname⟩⟩⟩)
      · omega
      · omega
      · omega
      · exact hname

/-- Counterexample to C4 as stated: with equal points and wins, the
driver with no best finish is ranked before a driver whose real best
finish is 2,000,000, because the code compares null as the sentinel
1,000,000 rather than after every real position. -/
theorem C4_counterexample :
    ¬ List.Pairwise claimRowOrder (calculate_standings dbHugePosition 1 none) := by
  decide

/-- C4 (amended): the calculated standings are a permutation of the
per-driver rows, sorted in the order points descending, wins descending,
best finish ascending with a missing best finish compared as the
sentinel position 1,000,000 (hence after every real position smaller
than 1,000,000), and lowercased display name ascending as the final
tie-break. -/
theorem C4_standings_sorted :
    ∀ (db : Db) (league_id : Nat) (season_id : Option Nat),
      List.Perm (calculate_standings db league_id season_id)
        (driverRows db league_id season_id)
      ∧ List.Pairwise codeRowOrder (calculate_standings db league_id season_id) := by
  intro db lid sid
  constructor
  · exact sortedBy_perm _ _
  · exact (pairwise_sortedBy rowLe rowLe_total rowLe_trans
      (driverRows db lid sid)).imp (fun h => (rowLe_iff _ _).mp h)

/-! ## C8 -/

theorem rowLe_points_le (a b : StandingRow) (h : rowLe a b = true) :
    b.points ≤ a.points := by
  rcases (rowLe_iff a b).mp h with h | ⟨heq, _⟩ <;> omega

/-- C8: standings contain exactly one row per driver of the league;
drivers with no qualifying results appear with zero points, zero wins
and no best finish; and a row with zero points never precedes a row
with positive points. -/
theorem C8_standings_driver_complete :
    ∀ (db : Db) (league_id : Nat) (season_id : Option Nat),
      List.Perm
        (List.map (fun r => r.driver_id) (calculate_standings db league_id season_id))
        (List.map (fun d => d.id)
          (List.filter (fun d => d.league_id == league_id) db.drivers))
      ∧ (∀ r ∈ calculate_standings db league_id season_id,
          qualifyingResults db league_id season_id r.driver_id = [] →
          r.points = 0 ∧ r.wins = 0 ∧ r.best_finish = none)
      ∧ List.Pairwise (fun a b => b.points ≤ a.points)
          (calculate_standings db league_id season_id)
      ∧ ∀ (i j : Fin (calculate_standings db league_id season_id).length),
          i < j →
          0 < ((calculate_standings db league_id season_id).get j).points →
          0 < ((calculate_standings db league_id season_id).get i).points := by
  intro db lid sid
  have hperm : List.Perm (calculate_standings db lid sid) (driverRows db lid sid) :=
    sortedBy_perm _ _
  have hpts : List.Pairwise (fun a b : StandingRow => b.points ≤ a.points)
      (calculate_standings db lid sid) :=
    (pairwise_sortedBy rowLe rowLe_total rowLe_trans (driverRows db lid sid)).imp
      (fun h => rowLe_points_le _ _ h)
  refine ⟨?_, ?_, hpts, ?_⟩
  · have h := hperm.map (fun r => r.driver_id)
    have heq : List.map (fun r : StandingRow => r.driver_id) (driverRows db lid sid)
        = List.map (fun d : DriverRow => d.id)
          (List.filter (fun d => d.league_id == lid) db.drivers) := by
      unfold driverRows
      rw [List.map_map]
      rfl
    rw [heq] at h
    exact h
  · intro r hr hq
    rcases List.mem_map.mp (hperm.mem_iff.mp hr) with ⟨d, _, rfl⟩
    have hq' : qualifyingResults db lid sid d.id = [] := hq
    refine ⟨?_, ?_, ?_⟩ <;> simp [standingRowFor, hq']
  · intro i j hij hpos
    have h := List.pairwise_iff_get.mp hpts i j hij
    omega

/-- Witness for C8: one completed result, one unscored driver. -/
theorem C8_standings_driver_complete_witness :
    List.Perm
      (List.map (fun r => r.driver_id) (calculate_standings dbDriverComplete 1 none))
      (List.map (fun d => d.id)
        (List.filter (fun d => d.league_id == 1) dbDriverComplete.drivers))
    ∧ (⟨2, "Amy", 0, 0, none⟩ : StandingRow).points = 0
    ∧ (⟨2, "Amy", 0, 0, none⟩ : StandingRow).wins = 0
    ∧ (⟨2, "Amy", 0, 0, none⟩ : StandingRow).best_finish = none :=
  ⟨(C8_standings_driver_complete dbDriverComplete 1 none).1,
    (C8_standings_driver_complete dbDriverComplete 1 none).2.1
      ⟨2, "Amy", 0, 0, none⟩ (by decide) (by decide)⟩

/-- Counterexample to C9 as stated: with the shared store configured and
the write succeeding, set returns early and the process-local fallback
map is not written. -/
theorem C9_counterexample :
    (cacheSet cacheShared 0 1 none "payload").redisConnected = true
    ∧ storeGet (cacheSet cacheShared 0 1 none "payload").redis (cacheBuildKey 1 none)
        = some ("payload", 300)
    ∧ storeGet (cacheSet cacheShared 0 1 none "payload").memory (cacheBuildKey 1 none)
        = none := by
  refine ⟨by decide, by decide, by decide⟩

/-- C9 (amended): set writes the shared store when it is configured and
the write succeeds, leaving the local fallback untouched; otherwise it
writes the process-local fallback with an explicit expiry, from which a
subsequent unexpired get is served when the shared store is
unconfigured. -/
theorem C9_cache_set_characterization :
    ∀ (c : CacheState) (now : Int) (league_id : Nat) (season_id : Option Nat)
      (payload : String),
      (c.redisConnected = true → c.redisWriteOk = true →
        (cacheSet c now league_id season_id payload).redis
          = storeSet c.redis (cacheBuildKey league_id season_id) payload (now + c.ttl)
        ∧ (cacheSet c now league_id season_id payload).memory = c.memory)
      ∧ (¬ (c.redisConnected = true ∧ c.redisWriteOk = true) →
        (cacheSet c now league_id season_id payload).memory
          = storeSet c.memory (cacheBuildKey league_id season_id) payload (now + c.ttl)
        ∧ (cacheSet c now league_id season_id payload).redis = c.redis)
      ∧ (c.redisConnected = false →
        ∀ now2 : Int, ¬ now + c.ttl < now2 →
          (cacheGet (cacheSet c now league_id season_id payload) now2
            league_id season_id).1 = some payload) := by
  intro c now lid sid payload
  refine ⟨?_, ?_, ?_⟩
  · intro h1 h2
    unfold cacheSet
    rw [if_pos h1, if_pos h2]
    exact ⟨rfl, rfl⟩
  · intro h
    unfold cacheSet
    by_cases h1 : c.redisConnected = true
    · have h2 : ¬ c.redisWriteOk = true := fun h2 => h ⟨h1, h2⟩
      rw [if_pos h1, if_neg h2]
      exact ⟨rfl, rfl⟩
    · rw [if_neg h1]
      exact ⟨rfl, rfl⟩
  · intro hconn now2 hexp
    have h1 : ¬ c.redisConnected = true := by simp [hconn]
    unfold cacheSet
    rw [if_neg h1]
    unfold cacheGet
    rw [if_neg h1]
    dsimp only
    rw [storeGet_storeSet_self]
    dsimp only
    rw [if_neg hexp]

/-- Witness for the amended C9: with the shared store unconfigured, a
set followed by an unexpired get is served from the local fallback. -/
theorem C9_cache_set_characterization_witness :
    (cacheGet (cacheSet cacheLocal 0 1 none "payload") 100 1 none).1 = some "payload" :=
  (C9_cache_set_characterization cacheLocal 0 1 none "payload").2.2 rfl 100 (by decide)

end GridBoss
